import Mathlib

/-!
# Verification of the pydivert packet codec, checksum engine and capture handle

The repository ships its test suite (`pydivert/tests/test_windivert.py`) and
exception definitions in source form; the packet codec (`Packet.parse`,
header views, field facades), the checksum engine (`calc_checksums` /
`update_packet_checksums`) and the capture `Handle` live in modules that are
not part of the source tree given here.  Those components are therefore
modelled from the design specification (spec.md), faithful to its words, and
checked against the behaviours pinned down by the shipped tests.

A raw packet buffer is a list of byte values (naturals `< 256`).  Header
views are offset windows into that shared buffer; field reads/writes act
directly on the buffer in network byte order (big-endian).
-/

namespace PyDivert

/-- A raw packet buffer: one network-layer packet as a byte list. -/
abbrev Buf := List Nat

/-- Read one byte (out-of-range reads give 0, matching a zero-padded view). -/
def readByte (b : Buf) (i : Nat) : Nat := b.getD i 0

/-- Read a big-endian (network byte order) 16-bit field at offset `i`. -/
def readBE16 (b : Buf) (i : Nat) : Nat := 256 * readByte b i + readByte b (i + 1)

/-- Read a little-endian (host byte order on Windows) 16-bit field at offset
`i`; this is how the raw ctypes header accessors interpret the bytes. -/
def readLE16 (b : Buf) (i : Nat) : Nat := readByte b i + 256 * readByte b (i + 1)

/-- Write a big-endian 16-bit field at offset `i`. -/
def writeBE16 (b : Buf) (i v : Nat) : Buf :=
  (b.set i (v / 256 % 256)).set (i + 1) (v % 256)

/-- Write a little-endian 16-bit field at offset `i` (raw ctypes accessor). -/
def writeLE16 (b : Buf) (i v : Nat) : Buf :=
  (b.set i (v % 256)).set (i + 1) (v / 256 % 256)

/-- The transport protocols modelled for the claims (IPv4 protocol field 6
and 17 respectively). -/
inductive TransProto where
  | tcp
  | udp
deriving DecidableEq, Repr

/-- Modelled from the spec: the header chain resolved at parse time — an
ordered pair of non-overlapping windows (IPv4 header of `ihl4` bytes at
offset 0, transport header of `thl` bytes at offset `ihl4`) over a buffer of
`len` bytes; the remainder is the payload slice. -/
structure Layout where
  ihl4 : Nat
  thl : Nat
  proto : TransProto
  len : Nat
deriving DecidableEq, Repr

/-- IPv4 header length in bytes: low nibble of byte 0, times 4. -/
def ihl4Of (b : Buf) : Nat := readByte b 0 % 16 * 4

/-- TCP header length in bytes: data-offset nibble of the 13th TCP byte. -/
def thlOf (b : Buf) : Nat := readByte b (ihl4Of b + 12) / 16 * 4

/-- Modelled from the spec: `Packet.parse` walking a raw buffer (the missing
codec module).  IPv4 detection reads the version nibble of the first byte;
TCP vs UDP detection reads the protocol field of the IP header.  Construction
fails (`MalformedHeaderError`, modelled as `none`) if the buffer is shorter
than the minimum header size or a declared internal length field exceeds the
remaining buffer. -/
def parseLayout (b : Buf) : Option Layout :=
  if b.length < 20 then none
  else if readByte b 0 / 16 = 4 then
    if 20 ≤ ihl4Of b ∧ ihl4Of b ≤ b.length ∧ readBE16 b 2 = b.length then
      if readByte b 9 = 6 then
        if 20 ≤ thlOf b ∧ ihl4Of b + thlOf b ≤ b.length then
          some ⟨ihl4Of b, thlOf b, TransProto.tcp, b.length⟩
        else none
      else if readByte b 9 = 17 then
        if ihl4Of b + 8 ≤ b.length then
          some ⟨ihl4Of b, 8, TransProto.udp, b.length⟩
        else none
      else none
    else none
  else none

/-- The protocol-specific part of layout well-formedness. -/
def ProtoOk (b : Buf) (L : Layout) : Prop :=
  match L.proto with
  | TransProto.tcp =>
      readByte b 9 = 6 ∧ L.thl = thlOf b ∧ 20 ≤ L.thl ∧ L.ihl4 + L.thl ≤ b.length
  | TransProto.udp =>
      readByte b 9 = 17 ∧ L.thl = 8 ∧ L.ihl4 + L.thl ≤ b.length

/-- Well-formedness of a buffer with respect to a resolved layout: exactly
the facts checked by `parseLayout`. -/
structure WF (b : Buf) (L : Layout) : Prop where
  hlen : 20 ≤ b.length
  hver : readByte b 0 / 16 = 4
  hihl : L.ihl4 = ihl4Of b
  hihl20 : 20 ≤ L.ihl4
  hihlle : L.ihl4 ≤ b.length
  htot : readBE16 b 2 = b.length
  hLlen : L.len = b.length
  hpr : ProtoOk b L

/-! ## Checksum engine -/

/-- One step of ones-complement carry folding, applied at most `fuel` times
(the value strictly decreases while `≥ 2^16`, so `fuel = s` always
suffices). -/
def ocFoldAux : Nat → Nat → Nat
  | 0, s => s
  | fuel + 1, s =>
    if s < 65536 then s else ocFoldAux fuel (s % 65536 + s / 65536)

/-- Fold the end-around carries of a ones-complement sum into 16 bits. -/
def ocFold (s : Nat) : Nat := ocFoldAux s s

/-- Sum a byte list as big-endian 16-bit words (odd tail zero-padded), the
accumulation step of every internet checksum. -/
def sum16 : Buf → Nat
  | [] => 0
  | [a] => 256 * a
  | a :: b :: rest => 256 * a + b + sum16 rest

/-- Offset of the transport-layer checksum field (TCP byte 16, UDP byte 6,
relative to the transport header). -/
def ckOff (L : Layout) : Nat :=
  match L.proto with
  | TransProto.tcp => L.ihl4 + 16
  | TransProto.udp => L.ihl4 + 6

/-- Zero the two checksum-bearing fields of the chain (IP header checksum at
bytes 10–11 and the transport checksum): both protocols treat the checksum
field as zero during computation. -/
def normalize (L : Layout) (b : Buf) : Buf :=
  (((b.set 10 0).set 11 0).set (ckOff L) 0).set (ckOff L + 1) 0

/-- IPv4 protocol numbers. -/
def protoByte : TransProto → Nat
  | TransProto.tcp => 6
  | TransProto.udp => 17

/-- Modelled from the spec: the transport pseudo-header — source/destination
address, a zero byte, the protocol, and the transport segment length,
included in the checksum but not transmitted. -/
def pseudoHdr (L : Layout) (nb : Buf) : Buf :=
  (nb.drop 12).take 8 ++
    [0, protoByte L.proto, (L.len - L.ihl4) / 256 % 256, (L.len - L.ihl4) % 256]

/-- Modelled from the spec: the IPv4 header checksum — ones-complement sum
over the header bytes with the checksum field treated as zero (`nb` is the
normalized buffer). -/
def ipChecksum (L : Layout) (nb : Buf) : Nat :=
  65535 - ocFold (sum16 (nb.take L.ihl4))

/-- Modelled from the spec: the TCP/UDP checksum — ones-complement sum over
the pseudo-header, transport header and payload with the checksum field
zeroed; UDP yields `0xFFFF` in place of literal zero (per UDP convention
only). -/
def transChecksum (L : Layout) (nb : Buf) : Nat :=
  let c := 65535 - ocFold (sum16 (pseudoHdr L nb ++ nb.drop L.ihl4))
  match L.proto with
  | TransProto.tcp => c
  | TransProto.udp => if c = 0 then 65535 else c

/-- Patch both checksum values into the buffer (network byte order). -/
def writeCks (L : Layout) (b : Buf) (c1 c2 : Nat) : Buf :=
  writeBE16 (writeBE16 b 10 c1) (ckOff L) c2

/-- Recompute every checksum-bearing header of a resolved chain, outer to
inner, and write the results back. -/
def recomputeWith (L : Layout) (b : Buf) : Buf :=
  writeCks L b (ipChecksum L (normalize L b)) (transChecksum L (normalize L b))

/-- Modelled from the spec: `ChecksumEngine.recompute` (the driver's
`calc_checksums` helper, absent from the source tree).  A malformed chain
signals `ChecksumUnavailableError` and leaves the buffer untouched, modelled
as the identity on the buffer. -/
def calc_checksums (b : Buf) : Buf :=
  match parseLayout b with
  | some L => recomputeWith L b
  | none => b

/-- A buffer is made of bytes. -/
def isBytes (b : Buf) : Prop := ∀ x ∈ b, x ≤ 255

instance (b : Buf) : Decidable (isBytes b) := by
  unfold isBytes; infer_instance

/-- The checksum fields present in the chain already hold the values the
engine would compute (true of any buffer the capture layer delivers). -/
def checksumsOk (b : Buf) : Bool :=
  match parseLayout b with
  | some L =>
      readBE16 b 10 == ipChecksum L (normalize L b) &&
        readBE16 b (ckOff L) == transChecksum L (normalize L b)
  | none => true

/-! ## Metadata and Packet -/

/-- Modelled from the spec: the immutable capture metadata record (interface
index pair, direction bit, loopback bit). -/
structure MetaRec where
  ifIdx : Nat
  subIfIdx : Nat
  outbound : Bool
  loopback : Bool
deriving DecidableEq, Repr

/-- Modelled from the spec: a `Packet` — the raw buffer it exclusively owns,
the header chain resolved at parse time, the dirty flag set by field
mutation and cleared when checksums are recomputed, and optional capture
metadata. -/
structure Packet where
  buf : Buf
  lay : Layout
  dirty : Bool
  meta : Option MetaRec
deriving DecidableEq, Repr

/-- Modelled from the spec: `Packet.parse(raw_buffer)` (the driver's
`parse_packet`): walks the buffer building the header chain and payload
slice; fails with `MalformedHeaderError` (modelled as `none`) on a malformed
chain; does not validate checksums and performs no mutation. -/
def parsePacket (b : Buf) : Option Packet :=
  (parseLayout b).map fun L => ⟨b, L, false, none⟩

/-- The payload slice: everything after the header chain. -/
def Packet.payload (p : Packet) : Buf :=
  p.buf.drop (p.lay.ihl4 + p.lay.thl)

/-- Modelled from the spec: reading `Packet.raw` — if the packet is dirty
the checksum engine recomputes and the dirty flag clears; the serialized
byte sequence equals the current buffer contents.  Returns the bytes
together with the post-read packet state. -/
def Packet.rawEff (p : Packet) : Buf × Packet :=
  if p.dirty then
    (calc_checksums p.buf,
      { buf := calc_checksums p.buf, lay := p.lay, dirty := false, meta := p.meta })
  else
    (p.buf, p)

/-! ## Address/port facade -/

/-- Modelled from the spec: the `dst_port` facade setter — writes the 16-bit
port in network byte order into the transport header (offset 2 for both TCP
and UDP) and marks the packet dirty. -/
def Packet.setDstPortF (p : Packet) (v : Nat) : Packet :=
  { p with buf := writeBE16 p.buf (p.lay.ihl4 + 2) v, dirty := true }

/-- Modelled from the spec: the `dst_port` facade getter — network byte
order read from the transport header. -/
def Packet.dstPortF (p : Packet) : Nat := readBE16 p.buf (p.lay.ihl4 + 2)

/-- The raw ctypes `tcp_hdr.DstPort` accessor: the same two bytes read as a
host-byte-order (little-endian) 16-bit integer. -/
def Packet.tcpDstPortRaw (p : Packet) : Nat := readLE16 p.buf (p.lay.ihl4 + 2)

/-- The raw ctypes `tcp_hdr.DstPort` setter (host byte order). -/
def Packet.setTcpDstPortRaw (p : Packet) (v : Nat) : Packet :=
  { p with buf := writeLE16 p.buf (p.lay.ihl4 + 2) v, dirty := true }

/-- Decimal digit parser for dotted-quad strings. -/
def parseDec (cs : List Char) : Option Nat :=
  match cs with
  | [] => none
  | _ =>
    cs.foldl
      (fun acc c =>
        acc.bind fun n =>
          if 48 ≤ c.toNat ∧ c.toNat ≤ 57 then some (n * 10 + (c.toNat - 48))
          else none)
      (some 0)

/-- Split a character list at the dots (character code 46). -/
def splitDots : List Char → List (List Char)
  | [] => [[]]
  | c :: rest =>
    match splitDots rest with
    | [] => [[]]
    | g :: gs => if c.toNat = 46 then [] :: g :: gs else (c :: g) :: gs

/-- `socket.inet_aton`: parse a dotted-quad IPv4 address string into four
octets. -/
def inetAton (s : String) : Option (Nat × Nat × Nat × Nat) :=
  match (splitDots s.data).map parseDec with
  | [some a, some b, some c, some d] =>
    if a ≤ 255 ∧ b ≤ 255 ∧ c ≤ 255 ∧ d ≤ 255 then some (a, b, c, d) else none
  | _ => none

/-- `socket.inet_ntoa`: format four octets as a dotted-quad string. -/
def inetNtoa (a b c d : Nat) : String :=
  Nat.repr a ++ "." ++ Nat.repr b ++ "." ++ Nat.repr c ++ "." ++ Nat.repr d

/-- Modelled from the spec: the `dst_addr` facade setter — parses the dotted
quad and writes the four octets big-endian into the IPv4 destination field
(bytes 16–19), marking the packet dirty; a malformed address string is an
error (`none`). -/
def Packet.setDstAddrStr (p : Packet) (s : String) : Option Packet :=
  (inetAton s).map fun q =>
    { p with
      buf := (((p.buf.set 16 q.1).set 17 q.2.1).set 18 q.2.2.1).set 19 q.2.2.2,
      dirty := true }

/-- Modelled from the spec: the `dst_addr` facade getter — reads the four
destination octets and formats them as a dotted quad. -/
def Packet.dstAddrStr (p : Packet) : String :=
  inetNtoa (readByte p.buf 16) (readByte p.buf 17) (readByte p.buf 18)
    (readByte p.buf 19)

/-- The raw ctypes `ipv4_hdr.DstAddr` accessor: the four destination octets
read as a host-byte-order (little-endian) 32-bit integer. -/
def Packet.ipv4DstAddrRaw (p : Packet) : Nat :=
  readByte p.buf 16 + 256 * readByte p.buf 17 + 65536 * readByte p.buf 18 +
    16777216 * readByte p.buf 19

/-! ## Diagnostics -/

/-- Modelled from the spec: the error taxonomy of the handle layer.
`handleClosed` is `HandleClosedError`; `nativeError` carries an opaque
native-layer error code; `invalidArg` is `InvalidArgumentError` (a
`ValueError`). -/
inductive HErr where
  | handleClosed
  | nativeError (code : Nat)
  | invalidArg
deriving DecidableEq, Repr

/-- Modelled from the spec: the `CaptureHandle` state machine —
`closed → (open) → open → (close) → closed`. -/
inductive HandleState where
  | closed
  | opened
deriving DecidableEq, Repr

/-- The `is_opened` predicate on a handle. -/
def isOpened : HandleState → Bool
  | HandleState.closed => false
  | HandleState.opened => true

/-- Modelled from the spec: `close()` — releases the external session and
transitions to `closed`; a second close on an already-closed handle signals
an error surfaced as a native-layer error code (6, an invalidated handle)
rather than silently succeeding. -/
def closeH : HandleState → Except HErr HandleState
  | HandleState.opened => Except.ok HandleState.closed
  | HandleState.closed => Except.error (HErr.nativeError 6)

/-- The handle operations other than open/close/send (payloads abstracted:
the parameter index or value does not affect the closed-handle guard). -/
inductive HandleOp where
  | recvOp
  | getParamOp (p : Nat)
  | setParamOp (p v : Nat)
deriving DecidableEq, Repr

/-- Modelled from the spec: every handle operation while `closed` fails with
`HandleClosedError`; while `open` it is forwarded to the external diversion
layer (whose behaviour is outside this core, modelled as success). -/
def execOp (h : HandleState) (_op : HandleOp) : Except HErr Unit :=
  match h with
  | HandleState.closed => Except.error HErr.handleClosed
  | HandleState.opened => Except.ok ()

/-- The shapes a Python-level argument to `send` can take. -/
inductive PyVal where
  | bytesV (b : Buf)
  | metaV (m : MetaRec)
  | tup (x y : PyVal)
  | packetV (p : Packet)
  | pystr (s : String)
deriving DecidableEq, Repr

/-- Modelled from the spec: `send` — accepts `send(raw_bytes, metadata)`,
`send((raw_bytes, metadata))`, or the convenience `send(packet)` (a thin
composition with `Packet.raw`); any other call shape fails with
`InvalidArgumentError`.  On success the returned pair is the buffer and
metadata handed to the external diversion layer; on error nothing is handed
over. -/
def sendH (h : HandleState) (args : List PyVal) : Except HErr (Buf × MetaRec) :=
  match h with
  | HandleState.closed => Except.error HErr.handleClosed
  | HandleState.opened =>
    match args with
    | [PyVal.bytesV b, PyVal.metaV m] => Except.ok (b, m)
    | [PyVal.tup (PyVal.bytesV b) (PyVal.metaV m)] => Except.ok (b, m)
    | [PyVal.packetV p] =>
      match p.meta with
      | some m => Except.ok (p.rawEff.1, m)
      | none => Except.error HErr.invalidArg
    | _ => Except.error HErr.invalidArg

/-- A single `send` argument that is neither a `(raw_bytes, metadata)`
2-tuple nor a `Packet`. -/
def nonTupleNonPacket : PyVal → Bool
  | PyVal.tup (PyVal.bytesV _) (PyVal.metaV _) => false
  | PyVal.packetV _ => false
  | _ => true

/-! ## Concrete captured packets

A loopback TCP/IPv4 segment carrying the ASCII payload `"Hello World!"`,
as captured by the test fixtures: both addresses `127.0.0.1`, source port
49152, destination port 8080, with the checksum fields filled in by the
engine (a captured packet always carries consistent checksums). -/

/-- The 52-byte template before checksum fill-in. -/
def helloTemplate : Buf :=
  [69, 0, 0, 52, 0, 1, 64, 0, 128, 6, 0, 0, 127, 0, 0, 1, 127, 0, 0, 1,
   192, 0, 31, 144, 0, 0, 0, 1, 0, 0, 0, 1, 80, 24, 8, 0, 0, 0, 0, 0,
   72, 101, 108, 108, 111, 32, 87, 111, 114, 108, 100, 33]

/-- The captured buffer: the template with consistent checksums. -/
def helloRaw : Buf := calc_checksums helloTemplate

/-- Its resolved header chain: 20-byte IPv4 header, 20-byte TCP header. -/
def helloLay : Layout := ⟨20, 20, TransProto.tcp, 52⟩

/-- The parsed captured packet. -/
def helloPkt : Packet := ⟨helloRaw, helloLay, false, none⟩

/-- The ASCII bytes of `"Hello World!"`. -/
def helloBytes : Buf := [72, 101, 108, 108, 111, 32, 87, 111, 114, 108, 100, 33]

/-- The same segment with destination port 0 (checksums consistent). -/
def port0Raw : Buf :=
  calc_checksums
    [69, 0, 0, 52, 0, 1, 64, 0, 128, 6, 0, 0, 127, 0, 0, 1, 127, 0, 0, 1,
     192, 0, 0, 0, 0, 0, 0, 1, 0, 0, 0, 1, 80, 24, 8, 0, 0, 0, 0, 0,
     72, 101, 108, 108, 111, 32, 87, 111, 114, 108, 100, 33]

/-- The port-0 capture, parsed. -/
def port0Pkt : Packet := ⟨port0Raw, helloLay, false, none⟩

/-- A capture metadata record, as `recv()` returns it (outbound loopback). -/
def m0 : MetaRec := ⟨0, 0, true, true⟩

/-- The captured `"Hello World!"` packet together with its metadata. -/
def helloPktMeta : Packet := ⟨helloRaw, helloLay, false, some m0⟩

/-- The ones-complement accumulation the transport checksum of a buffer is
computed from: pseudo-header plus transport header and payload, checksum
fields zeroed. -/
def transSum (L : Layout) (b : Buf) : Nat :=
  sum16 (pseudoHdr L (normalize L b) ++ (normalize L b).drop L.ihl4)

/-! ## Parsing and well-formedness -/

theorem wf_of_parseLayout {b : Buf} {L : Layout} (h : parseLayout b = some L) :
    WF b L := by
  unfold parseLayout at h
  split_ifs at h with h1 h2 h3 h4 h5 h6 h7
  · obtain ⟨h3a, h3b, h3c⟩ := h3
    obtain ⟨h5a, h5b⟩ := h5
    cases h
    exact ⟨by omega, h2, rfl, h3a, h3b, h3c, rfl, h4, rfl, h5a, h5b⟩
  · obtain ⟨h3a, h3b, h3c⟩ := h3
    cases h
    exact ⟨by omega, h2, rfl, h3a, h3b, h3c, rfl, h6, rfl, h7⟩

theorem parseLayout_of_wf {b : Buf} {L : Layout} (h : WF b L) :
    parseLayout b = some L := by
  obtain ⟨ihl4, thl, proto, len⟩ := L
  obtain ⟨hlen, hver, hihl, hihl20, hihlle, htot, hLlen, hpr⟩ := h
  dsimp only at hihl hihl20 hihlle hLlen
  unfold parseLayout
  rw [if_neg (by omega), if_pos hver, if_pos ⟨by omega, by omega, htot⟩]
  cases proto with
  | tcp =>
    obtain ⟨hp9, hthl, hthl20, hfit⟩ := hpr
    dsimp only at hp9 hthl hthl20 hfit
    rw [if_pos hp9, if_pos ⟨by omega, by omega⟩]
    subst hihl hLlen hthl
    rfl
  | udp =>
    obtain ⟨hp9, hthl, hfit⟩ := hpr
    dsimp only at hp9 hthl hfit
    rw [if_neg (by omega), if_pos hp9, if_pos (by omega)]
    subst hihl hLlen hthl
    rfl

/-! ## Byte-level read/write lemmas -/

theorem readByte_set (b : Buf) (i j v : Nat) :
    readByte (b.set i v) j = if i = j ∧ i < b.length then v else readByte b j := by
  by_cases hij : i = j
  · subst hij
    by_cases hlt : i < b.length
    · simp [readByte, List.getD_eq_getElem?_getD, List.getElem?_set, hlt]
    · rw [if_neg fun hc => hlt hc.2]
      simp [readByte, List.getD_eq_getElem?_getD, List.getElem?_set, hlt,
        List.getElem?_eq_none (Nat.le_of_not_lt hlt)]
  · rw [if_neg fun hc => hij hc.1]
    simp [readByte, List.getD_eq_getElem?_getD, List.getElem?_set, hij]

theorem readByte_le {b : Buf} (hB : isBytes b) (i : Nat) : readByte b i ≤ 255 := by
  unfold readByte
  rcases h : b[i]? with _ | x
  · simp [List.getD_eq_getElem?_getD, h]
  · have hx : x ∈ b := List.getElem?_mem h
    simpa [List.getD_eq_getElem?_getD, h] using hB x hx

theorem readByte_eq_getElem {b : Buf} {i : Nat} (h : i < b.length) :
    b[i]? = some (readByte b i) := by
  simp [readByte, List.getD_eq_getElem?_getD, List.getElem?_eq_getElem h]

theorem set_readByte_self {b : Buf} {i v : Nat} (hv : readByte b i = v) :
    b.set i v = b := by
  apply List.ext_getElem?
  intro j
  rw [List.getElem?_set]
  split_ifs with h1 h2
  · subst h1
    rw [readByte_eq_getElem h2, hv]
  · subst h1
    exact (List.getElem?_eq_none (Nat.le_of_not_lt h2)).symm
  · rfl

theorem length_writeBE16 (b : Buf) (i v : Nat) :
    (writeBE16 b i v).length = b.length := by
  simp [writeBE16]

theorem readByte_writeBE16_ne {b : Buf} {i j v : Nat} (h1 : j ≠ i)
    (h2 : j ≠ i + 1) : readByte (writeBE16 b i v) j = readByte b j := by
  unfold writeBE16
  rw [readByte_set, if_neg fun hc => h2 hc.1.symm,
    readByte_set, if_neg fun hc => h1 hc.1.symm]

theorem readByte_writeBE16_hi {b : Buf} {i v : Nat} (h : i + 1 < b.length) :
    readByte (writeBE16 b i v) i = v / 256 % 256 := by
  unfold writeBE16
  rw [readByte_set, if_neg fun hc => by omega,
    readByte_set, if_pos ⟨rfl, by omega⟩]

theorem readByte_writeBE16_lo {b : Buf} {i v : Nat} (h : i + 1 < b.length) :
    readByte (writeBE16 b i v) (i + 1) = v % 256 := by
  unfold writeBE16
  rw [readByte_set, if_pos ⟨rfl, by simp [List.length_set]; omega⟩]

theorem readBE16_writeBE16 {b : Buf} {i v : Nat} (h : i + 1 < b.length)
    (hv : v ≤ 65535) : readBE16 (writeBE16 b i v) i = v := by
  unfold readBE16
  rw [readByte_writeBE16_hi h, readByte_writeBE16_lo h]
  omega

/-! ## Ones-complement folding -/

theorem ocFoldAux_le (fuel s : Nat) (h : s ≤ fuel + 65535) :
    ocFoldAux fuel s ≤ 65535 := by
  induction fuel generalizing s with
  | zero => unfold ocFoldAux; omega
  | succ fuel ih =>
    unfold ocFoldAux
    split_ifs with hs
    · omega
    · exact ih _ (by omega)

theorem ocFold_le (s : Nat) : ocFold s ≤ 65535 :=
  ocFoldAux_le s s (by omega)

theorem ocFoldAux_mod (fuel s : Nat) : ocFoldAux fuel s % 65535 = s % 65535 := by
  induction fuel generalizing s with
  | zero => rfl
  | succ fuel ih =>
    unfold ocFoldAux
    split_ifs with hs
    · rfl
    · rw [ih]; omega

theorem ocFold_mod (s : Nat) : ocFold s % 65535 = s % 65535 :=
  ocFoldAux_mod s s

theorem ocFold_ne_of_mod_ne {s1 s2 : Nat} (h : s1 % 65535 ≠ s2 % 65535) :
    65535 - ocFold s1 ≠ 65535 - ocFold s2 := by
  have h1 := ocFold_le s1
  have h2 := ocFold_le s2
  have m1 := ocFold_mod s1
  have m2 := ocFold_mod s2
  intro he
  exact h (by omega)

theorem ipChecksum_le (L : Layout) (nb : Buf) : ipChecksum L nb ≤ 65535 := by
  unfold ipChecksum; omega

theorem transChecksum_le (L : Layout) (nb : Buf) : transChecksum L nb ≤ 65535 := by
  unfold transChecksum
  cases L.proto
  · simp only; omega
  · simp only
    split_ifs <;> omega

theorem ckOff_ge (L : Layout) : L.ihl4 + 6 ≤ ckOff L := by
  obtain ⟨i, t, p, l⟩ := L
  cases p
  · show i + 6 ≤ i + 16
    omega
  · show i + 6 ≤ i + 6
    omega

theorem ckOff_ne_dataOff (L : Layout) :
    ckOff L ≠ L.ihl4 + 12 ∧ ckOff L + 1 ≠ L.ihl4 + 12 := by
  obtain ⟨i, t, p, l⟩ := L
  cases p
  · exact ⟨by show i + 16 ≠ i + 12; omega, by show i + 16 + 1 ≠ i + 12; omega⟩
  · exact ⟨by show i + 6 ≠ i + 12; omega, by show i + 6 + 1 ≠ i + 12; omega⟩

/-! ## Shadowing: rewriting a checksum field hides any earlier write to it -/

theorem writeCks_shadow (L : Layout) (b : Buf) (c1 c2 d1 d2 : Nat) :
    writeCks L (writeCks L b c1 c2) d1 d2 = writeCks L b d1 d2 := by
  apply List.ext_getElem?
  intro j
  simp only [writeCks, writeBE16, List.getElem?_set, List.length_set]
  split_ifs <;> rfl

theorem normalize_writeCks (L : Layout) (b : Buf) (c1 c2 : Nat) :
    normalize L (writeCks L b c1 c2) = normalize L b := by
  apply List.ext_getElem?
  intro j
  simp only [normalize, writeCks, writeBE16, List.getElem?_set, List.length_set]
  split_ifs <;> rfl

theorem normalize_writeBE16_port (L : Layout) (b : Buf) (v : Nat)
    (h20 : 20 ≤ L.ihl4) :
    normalize L (writeBE16 b (L.ihl4 + 2) v) =
      writeBE16 (normalize L b) (L.ihl4 + 2) v := by
  have hck := ckOff_ge L
  apply List.ext_getElem?
  intro j
  simp only [normalize, writeBE16, List.getElem?_set, List.length_set]
  split_ifs <;> first | rfl | omega

/-! ## Well-formedness is preserved by writes outside the structural fields -/

theorem wf_congr {b b' : Buf} {L : Layout} (h : WF b L)
    (hlen : b'.length = b.length)
    (h0 : readByte b' 0 = readByte b 0)
    (h2 : readByte b' 2 = readByte b 2)
    (h3 : readByte b' 3 = readByte b 3)
    (h9 : readByte b' 9 = readByte b 9)
    (hdo : readByte b' (ihl4Of b + 12) = readByte b (ihl4Of b + 12)) :
    WF b' L := by
  have hihl : ihl4Of b' = ihl4Of b := by unfold ihl4Of; rw [h0]
  have hthl : thlOf b' = thlOf b := by unfold thlOf; rw [hihl, hdo]
  refine ⟨hlen ▸ h.hlen, h0 ▸ h.hver, hihl ▸ h.hihl, h.hihl20,
    hlen ▸ h.hihlle, ?_, hlen ▸ h.hLlen, ?_⟩
  · unfold readBE16
    rw [h2, h3, hlen]
    exact h.htot
  · have hpr := h.hpr
    unfold ProtoOk at hpr ⊢
    cases hp : L.proto <;> rw [hp] at hpr
    · exact ⟨h9 ▸ hpr.1, hthl ▸ hpr.2.1, hpr.2.2.1, hlen ▸ hpr.2.2.2⟩
    · exact ⟨h9 ▸ hpr.1, hpr.2.1, hlen ▸ hpr.2.2⟩

theorem ckOff_lt_len {b : Buf} {L : Layout} (h : WF b L) :
    ckOff L + 1 < b.length := by
  have hpr := h.hpr
  obtain ⟨i, t, p, l⟩ := L
  cases p
  · have hp : readByte b 9 = 6 ∧ t = thlOf b ∧ 20 ≤ t ∧ i + t ≤ b.length := hpr
    show i + 16 + 1 < b.length
    omega
  · have hp : readByte b 9 = 17 ∧ t = 8 ∧ i + t ≤ b.length := hpr
    show i + 6 + 1 < b.length
    omega

theorem wf_writeCks {b : Buf} {L : Layout} (h : WF b L) (c1 c2 : Nat) :
    WF (writeCks L b c1 c2) L := by
  have h26 : 26 ≤ ckOff L := by have := ckOff_ge L; have := h.hihl20; omega
  have hdo := ckOff_ne_dataOff L
  have hihl : ihl4Of b = L.ihl4 := h.hihl.symm
  apply wf_congr h
  · simp [writeCks, length_writeBE16]
  all_goals
    unfold writeCks
    rw [readByte_writeBE16_ne (by omega) (by omega),
      readByte_writeBE16_ne (by omega) (by omega)]

theorem wf_writePort {b : Buf} {L : Layout} (h : WF b L) (v : Nat) :
    WF (writeBE16 b (L.ihl4 + 2) v) L := by
  have hihl20 := h.hihl20
  have hihl : ihl4Of b = L.ihl4 := h.hihl.symm
  apply wf_congr h
  · exact length_writeBE16 ..
  all_goals
    rw [readByte_writeBE16_ne (by omega) (by omega)]

theorem wf_writeAddr {b : Buf} {L : Layout} (h : WF b L) (a1 a2 a3 a4 : Nat) :
    WF ((((b.set 16 a1).set 17 a2).set 18 a3).set 19 a4) L := by
  have hihl20 := h.hihl20
  have hihl : ihl4Of b = L.ihl4 := h.hihl.symm
  apply wf_congr h
  · simp
  all_goals
    rw [readByte_set, if_neg (by omega), readByte_set, if_neg (by omega),
      readByte_set, if_neg (by omega), readByte_set, if_neg (by omega)]

/-! ## Recomputation lemmas -/

theorem calc_checksums_eq_some {b : Buf} {L : Layout}
    (h : parseLayout b = some L) : calc_checksums b = recomputeWith L b := by
  unfold calc_checksums
  rw [h]

theorem calc_checksums_eq_none {b : Buf} (h : parseLayout b = none) :
    calc_checksums b = b := by
  unfold calc_checksums
  rw [h]

theorem length_writeCks (L : Layout) (b : Buf) (c1 c2 : Nat) :
    (writeCks L b c1 c2).length = b.length := by
  simp [writeCks, writeBE16]

theorem length_calc_checksums (b : Buf) :
    (calc_checksums b).length = b.length := by
  cases hL : parseLayout b with
  | none => rw [calc_checksums_eq_none hL]
  | some L =>
    rw [calc_checksums_eq_some hL]
    exact length_writeCks ..

/-- Recomputing twice is recomputing once: the second pass computes its
checksums over the same normalized bytes (the first pass only wrote inside
the fields that normalization zeroes) and then overwrites the same fields
with the same values. -/
theorem recomputeWith_recomputeWith (L : Layout) (b : Buf) :
    recomputeWith L (recomputeWith L b) = recomputeWith L b := by
  unfold recomputeWith
  rw [normalize_writeCks]
  exact writeCks_shadow ..

theorem parseLayout_calc {b : Buf} {L : Layout} (h : parseLayout b = some L) :
    parseLayout (calc_checksums b) = some L := by
  rw [calc_checksums_eq_some h]
  exact parseLayout_of_wf (wf_writeCks (wf_of_parseLayout h) _ _)

/-- A buffer whose checksum fields already hold the engine's values is left
byte-for-byte unchanged by recomputation. -/
theorem calc_checksums_consistent {b : Buf} (hB : isBytes b)
    (hOk : checksumsOk b = true) : calc_checksums b = b := by
  cases hL : parseLayout b with
  | none => exact calc_checksums_eq_none hL
  | some L =>
    have hwf := wf_of_parseLayout hL
    rw [calc_checksums_eq_some hL]
    unfold checksumsOk at hOk
    rw [hL] at hOk
    simp only [Bool.and_eq_true, beq_iff_eq] at hOk
    obtain ⟨h1, h2⟩ := hOk
    have hlen := hwf.hlen
    have hckl := ckOff_lt_len hwf
    have hr10 := readByte_le hB 10
    have hr11 := readByte_le hB 11
    have hrc := readByte_le hB (ckOff L)
    have hrc1 := readByte_le hB (ckOff L + 1)
    have hip := ipChecksum_le L (normalize L b)
    have htr := transChecksum_le L (normalize L b)
    unfold readBE16 at h1 h2
    have h1' : 256 * readByte b 10 + readByte b 11 =
        ipChecksum L (normalize L b) := h1
    unfold recomputeWith writeCks writeBE16
    have e1 : b.set 10 (ipChecksum L (normalize L b) / 256 % 256) = b :=
      set_readByte_self (by omega)
    have e2 : b.set 11 (ipChecksum L (normalize L b) % 256) = b :=
      set_readByte_self (by omega)
    have e3 : b.set (ckOff L) (transChecksum L (normalize L b) / 256 % 256) = b :=
      set_readByte_self (by omega)
    have e4 :
        b.set (ckOff L + 1) (transChecksum L (normalize L b) % 256) = b :=
      set_readByte_self (by omega)
    rw [e1, e2, e3, e4]

/-! ## Packet-level helper lemmas -/

theorem parsePacket_inv {b : Buf} {p : Packet} (h : parsePacket b = some p) :
    parseLayout b = some p.lay ∧ p.buf = b ∧ p.dirty = false ∧ p.meta = none := by
  unfold parsePacket at h
  cases hL : parseLayout b <;> rw [hL] at h
  · simp at h
  · rw [Option.map_some'] at h
    cases h
    exact ⟨rfl, rfl, rfl, rfl⟩

theorem wf_of_parsePacket {b : Buf} {p : Packet} (h : parsePacket b = some p) :
    WF b p.lay :=
  wf_of_parseLayout (parsePacket_inv h).1

theorem ihl3_lt_len {b : Buf} {L : Layout} (h : WF b L) :
    L.ihl4 + 3 < b.length := by
  have hpr := h.hpr
  obtain ⟨i, t, p, l⟩ := L
  cases p
  · have hp : readByte b 9 = 6 ∧ t = thlOf b ∧ 20 ≤ t ∧ i + t ≤ b.length := hpr
    show i + 3 < b.length
    omega
  · have hp : readByte b 9 = 17 ∧ t = 8 ∧ i + t ≤ b.length := hpr
    show i + 3 < b.length
    omega

theorem readByte_writeLE16_at {b : Buf} {i v : Nat} (h : i + 1 < b.length) :
    readByte (writeLE16 b i v) i = v % 256 := by
  unfold writeLE16
  rw [readByte_set, if_neg fun hc => by omega,
    readByte_set, if_pos ⟨rfl, by omega⟩]

theorem readByte_writeLE16_at1 {b : Buf} {i v : Nat} (h : i + 1 < b.length) :
    readByte (writeLE16 b i v) (i + 1) = v / 256 % 256 := by
  unfold writeLE16
  rw [readByte_set, if_pos ⟨rfl, by simp [List.length_set]; omega⟩]

/-! ## Claim theorems -/

/-- C1: for every well-formed raw buffer `b` with a supported header chain,
parsing `b` into a `Packet` with no subsequent mutation and reading the
packet's raw serialization yields a byte sequence identical to `b`
(`parse(b).raw == b`). -/
theorem parse_raw_roundtrip (b : Buf) (p : Packet)
    (h : parsePacket b = some p) : p.rawEff.1 = b := by
  obtain ⟨-, hbuf, hdirty, -⟩ := parsePacket_inv h
  unfold Packet.rawEff
  rw [hdirty]
  simpa using hbuf

/-- Witness for C1 at a concrete captured TCP/IPv4 packet. -/
theorem parse_raw_roundtrip_witness :
    parsePacket helloRaw = some helloPkt ∧ helloPkt.rawEff.1 = helloRaw :=
  ⟨by decide, parse_raw_roundtrip helloRaw helloPkt (by decide)⟩

/-- C2: checksum recomputation is idempotent —
`recompute(recompute(p)) = recompute(p)` for any packet buffer, and
recomputing over a buffer whose checksums are already consistent leaves
every byte unchanged. -/
theorem calc_checksums_idem (b : Buf) :
    calc_checksums (calc_checksums b) = calc_checksums b ∧
      (isBytes b → checksumsOk b = true → calc_checksums b = b) := by
  constructor
  · cases hL : parseLayout b with
    | none =>
      rw [calc_checksums_eq_none hL, calc_checksums_eq_none hL]
    | some L =>
      rw [calc_checksums_eq_some (parseLayout_calc hL),
        calc_checksums_eq_some hL]
      exact recomputeWith_recomputeWith L b
  · exact fun hB hOk => calc_checksums_consistent hB hOk

/-- Witness for C2 at a concrete captured TCP/IPv4 packet (whose checksums
are consistent). -/
theorem calc_checksums_idem_witness :
    calc_checksums (calc_checksums helloRaw) = calc_checksums helloRaw ∧
      calc_checksums helloRaw = helloRaw :=
  ⟨(calc_checksums_idem helloRaw).1,
    (calc_checksums_idem helloRaw).2 (by decide) (by decide)⟩

/-- C5: mutating only the header fields `dst_port` and `dst_addr` (not the
payload) of a parsed packet and then reading the raw serialization yields a
byte sequence whose length equals the length of the original raw buffer
exactly. -/
theorem header_edit_length_preserved (b : Buf) (p p' : Packet) (v : Nat)
    (s : String) (h : parsePacket b = some p)
    (h' : (p.setDstPortF v).setDstAddrStr s = some p') :
    p'.rawEff.1.length = b.length := by
  obtain ⟨-, hbuf, -, -⟩ := parsePacket_inv h
  unfold Packet.setDstAddrStr at h'
  cases hA : inetAton s <;> rw [hA] at h'
  · simp at h'
  · rw [Option.map_some'] at h'
    cases h'
    show (Packet.rawEff _).1.length = b.length
    unfold Packet.rawEff
    simp [Packet.setDstPortF, length_calc_checksums, length_writeBE16, hbuf]

/-- Witness for C5: the test's mutation (`dst_port = 80`,
`dst_addr = "10.10.10.10"`) on a concrete captured packet. -/
theorem header_edit_length_preserved_witness :
    ∃ p', (helloPkt.setDstPortF 80).setDstAddrStr "10.10.10.10" = some p' ∧
      p'.rawEff.1.length = helloRaw.length :=
  ⟨((helloPkt.setDstPortF 80).setDstAddrStr "10.10.10.10").get (by decide),
    by decide,
    header_edit_length_preserved helloRaw helloPkt _ 80 "10.10.10.10"
      (by decide) (by decide)⟩

/-- C6: parsing a well-formed TCP/IPv4 packet whose transport payload is the
ASCII bytes `"Hello World!"` yields `packet.payload == b"Hello World!"`, and
the last `len(payload)` bytes of the packet's raw serialization equal the
last `len(payload)` bytes of the original raw buffer. -/
theorem payload_extraction (b : Buf) (p : Packet)
    (h : parsePacket b = some p)
    (hp : b.drop (p.lay.ihl4 + p.lay.thl) = helloBytes) :
    p.payload = helloBytes ∧
      p.rawEff.1.drop (p.rawEff.1.length - helloBytes.length) =
        b.drop (b.length - helloBytes.length) := by
  obtain ⟨-, hbuf, hdirty, -⟩ := parsePacket_inv h
  have hraw : p.rawEff.1 = b := by
    unfold Packet.rawEff
    rw [hdirty]
    simpa using hbuf
  refine ⟨?_, by rw [hraw]⟩
  unfold Packet.payload
  rw [hbuf]
  exact hp

/-- Witness for C6 at the concrete captured `"Hello World!"` packet. -/
theorem payload_extraction_witness :
    helloPkt.payload = helloBytes ∧
      helloPkt.rawEff.1.drop (helloPkt.rawEff.1.length - helloBytes.length) =
        helloRaw.drop (helloRaw.length - helloBytes.length) :=
  payload_extraction helloRaw helloPkt (by decide) (by decide)

/-- C8: every handle operation attempted in the closed state fails with
`HandleClosedError`; `close` is not idempotent — closing a handle that is
not open fails with a native-layer error code rather than silently
succeeding, while `close` on an open handle transitions it to closed
(`is_opened` becomes false). -/
theorem closed_handle_guard :
    (∀ op : HandleOp,
        execOp HandleState.closed op = Except.error HErr.handleClosed) ∧
      (∀ args : List PyVal,
        sendH HandleState.closed args = Except.error HErr.handleClosed) ∧
      closeH HandleState.closed = Except.error (HErr.nativeError 6) ∧
      closeH HandleState.opened = Except.ok HandleState.closed ∧
      isOpened HandleState.closed = false ∧
      isOpened HandleState.opened = true :=
  ⟨fun _ => rfl, fun _ => rfl, rfl, rfl, rfl, rfl⟩

/-- C4: for an IPv4 packet whose `dst_addr` reads `"127.0.0.1"`, assigning
`dst_addr = "10.0.2.15"` makes the IPv4 header's raw destination-address
field equal the big-endian encoding of `10.0.2.15` (the four bytes
`0x0A 0x00 0x02 0x0F`), and subsequently reading `dst_addr` returns the
string `"10.0.2.15"`. -/
theorem dst_addr_mutation (b : Buf) (p : Packet)
    (h : parsePacket b = some p) (_hdst : p.dstAddrStr = "127.0.0.1") :
    ∃ p', p.setDstAddrStr "10.0.2.15" = some p' ∧
      readByte p'.buf 16 = 10 ∧ readByte p'.buf 17 = 0 ∧
      readByte p'.buf 18 = 2 ∧ readByte p'.buf 19 = 15 ∧
      p'.dstAddrStr = "10.0.2.15" := by
  obtain ⟨hL, hbuf, -, -⟩ := parsePacket_inv h
  have hwf := wf_of_parseLayout hL
  have hlen : 20 ≤ b.length := hwf.hlen
  have hA : inetAton "10.0.2.15" = some (10, 0, 2, 15) := by decide
  refine ⟨_, by unfold Packet.setDstAddrStr; rw [hA, Option.map_some'], ?_⟩
  rw [hbuf]
  have e16 : readByte ((((b.set 16 10).set 17 0).set 18 2).set 19 15) 16 = 10 := by
    rw [readByte_set, if_neg (fun hc => by omega),
      readByte_set, if_neg (fun hc => by omega),
      readByte_set, if_neg (fun hc => by omega),
      readByte_set, if_pos ⟨rfl, by omega⟩]
  have e17 : readByte ((((b.set 16 10).set 17 0).set 18 2).set 19 15) 17 = 0 := by
    rw [readByte_set, if_neg (fun hc => by omega),
      readByte_set, if_neg (fun hc => by omega),
      readByte_set, if_pos ⟨rfl, by simp only [List.length_set]; omega⟩]
  have e18 : readByte ((((b.set 16 10).set 17 0).set 18 2).set 19 15) 18 = 2 := by
    rw [readByte_set, if_neg (fun hc => by omega),
      readByte_set, if_pos ⟨rfl, by simp only [List.length_set]; omega⟩]
  have e19 : readByte ((((b.set 16 10).set 17 0).set 18 2).set 19 15) 19 = 15 := by
    rw [readByte_set, if_pos ⟨rfl, by simp only [List.length_set]; omega⟩]
  refine ⟨e16, e17, e18, e19, ?_⟩
  unfold Packet.dstAddrStr
  rw [e16, e17, e18, e19]
  decide

/-- Witness for C4 at the concrete captured packet (destination
`127.0.0.1`). -/
theorem dst_addr_mutation_witness :
    ∃ p', helloPkt.setDstAddrStr "10.0.2.15" = some p' ∧
      readByte p'.buf 16 = 10 ∧ readByte p'.buf 17 = 0 ∧
      readByte p'.buf 18 = 2 ∧ readByte p'.buf 19 = 15 ∧
      p'.dstAddrStr = "10.0.2.15" :=
  dst_addr_mutation helloRaw helloPkt (by decide) (by decide)

/-- C10: the raw ctypes header accessor and the port facade are related by a
16-bit byte swap: after `packet.dst_port = v`, reading
`packet.tcp_hdr.DstPort` yields `((v & 0xFF) << 8) | (v >> 8)` (so 23 reads
back as 5888), and restoring the saved raw header-field value makes the
facade accessor return its original value. -/
theorem port_byte_swap (b : Buf) (p : Packet) (v : Nat)
    (h : parsePacket b = some p) (hB : isBytes b)
    (_htcp : p.lay.proto = TransProto.tcp) (hv : v ≤ 65535) :
    (p.setDstPortF v).tcpDstPortRaw = v % 256 * 256 + v / 256 ∧
      ((p.setDstPortF v).setTcpDstPortRaw p.tcpDstPortRaw).dstPortF =
        p.dstPortF := by
  obtain ⟨hL, hbuf, -, -⟩ := parsePacket_inv h
  have hwf := wf_of_parseLayout hL
  have hlt : p.lay.ihl4 + 3 < b.length := ihl3_lt_len hwf
  have hb2 := readByte_le hB (p.lay.ihl4 + 2)
  have hb3 := readByte_le hB (p.lay.ihl4 + 3)
  constructor
  · show readLE16 (writeBE16 p.buf (p.lay.ihl4 + 2) v) (p.lay.ihl4 + 2) =
      v % 256 * 256 + v / 256
    rw [hbuf]
    unfold readLE16
    rw [readByte_writeBE16_hi (by omega),
      show p.lay.ihl4 + 2 + 1 = p.lay.ihl4 + 3 from rfl,
      show (writeBE16 b (p.lay.ihl4 + 2) v : Buf) =
        writeBE16 b (p.lay.ihl4 + 2) v from rfl]
    rw [show readByte (writeBE16 b (p.lay.ihl4 + 2) v) (p.lay.ihl4 + 3) =
        v % 256 from readByte_writeBE16_lo (by omega)]
    omega
  · show readBE16
      (writeLE16 (writeBE16 p.buf (p.lay.ihl4 + 2) v) (p.lay.ihl4 + 2)
        (readLE16 p.buf (p.lay.ihl4 + 2)))
      (p.lay.ihl4 + 2) = readBE16 p.buf (p.lay.ihl4 + 2)
    rw [hbuf]
    have hlen' : (writeBE16 b (p.lay.ihl4 + 2) v).length = b.length :=
      length_writeBE16 ..
    have hb3' : readByte b (p.lay.ihl4 + 2 + 1) ≤ 255 := hb3
    unfold readBE16 readLE16
    rw [readByte_writeLE16_at (by omega), readByte_writeLE16_at1 (by omega)]
    omega

/-- Witness for C10: `v = 23` reads back as 5888 through the raw accessor on
the concrete captured packet, and restoring the saved raw value restores the
facade port. -/
theorem port_byte_swap_witness :
    (helloPkt.setDstPortF 23).tcpDstPortRaw = 5888 ∧
      ((helloPkt.setDstPortF 23).setTcpDstPortRaw helloPkt.tcpDstPortRaw).dstPortF =
        helloPkt.dstPortF :=
  port_byte_swap helloRaw helloPkt 23 (by decide) (by decide) (by decide)
    (by decide)

/-- Counterexample to C7 as stated: `send(packet)` — a single argument that
is neither a `(raw_bytes, metadata)` 2-tuple nor accompanied by a second
positional argument — succeeds (the convenience form pinned by the
`test_pass_through_packet` test and spec §4.4), handing the packet's bytes
and metadata to the external layer instead of failing. -/
theorem send_single_packet_ok_cex :
    sendH HandleState.opened [PyVal.packetV helloPktMeta] =
      Except.ok (helloRaw, m0) := rfl

/-- C7 (amended): calling `send` on an open handle with a single argument
that is neither a `(raw_bytes, metadata)` 2-tuple nor a `Packet` fails with
`InvalidArgumentError` (a `ValueError`), and no data is handed to the
external diversion layer. -/
theorem send_arg_validation_amended (v : PyVal)
    (h : nonTupleNonPacket v = true) :
    sendH HandleState.opened [v] = Except.error HErr.invalidArg := by
  cases v with
  | bytesV b => rfl
  | metaV m => rfl
  | pystr s => rfl
  | packetV p => exact absurd h (by intro hc; exact Bool.false_ne_true hc)
  | tup x y =>
    cases x with
    | bytesV b =>
      cases y with
      | metaV m => exact absurd h (by intro hc; exact Bool.false_ne_true hc)
      | bytesV b' => rfl
      | tup x' y' => rfl
      | packetV p => rfl
      | pystr s => rfl
    | metaV m => rfl
    | tup x' y' => rfl
    | packetV p => rfl
    | pystr s => rfl

/-- Witness for the amended C7: the test's call shape `send("test")`. -/
theorem send_arg_validation_amended_witness :
    sendH HandleState.opened [PyVal.pystr "test"] =
      Except.error HErr.invalidArg :=
  send_arg_validation_amended (PyVal.pystr "test") (by decide)

theorem transChecksum_eq_tcp {L : Layout} (htcp : L.proto = TransProto.tcp)
    (b : Buf) :
    transChecksum L (normalize L b) = 65535 - ocFold (transSum L b) := by
  unfold transChecksum transSum
  rw [htcp]

theorem readBE16_writeCks {L : Layout} {b : Buf} {c1 c2 : Nat}
    (hck : ckOff L + 1 < b.length) (hc2 : c2 ≤ 65535) :
    readBE16 (writeCks L b c1 c2) (ckOff L) = c2 := by
  unfold writeCks
  exact readBE16_writeBE16 (by rw [length_writeBE16]; exact hck) hc2

theorem checksumsOk_trans {b : Buf} {L : Layout} (hL : parseLayout b = some L)
    (hOk : checksumsOk b = true) :
    readBE16 b (ckOff L) = transChecksum L (normalize L b) := by
  unfold checksumsOk at hOk
  rw [hL] at hOk
  simp only [Bool.and_eq_true, beq_iff_eq] at hOk
  exact hOk.2

/-- Counterexample to C3 as stated: on a captured TCP/IPv4 packet with
destination port 0, mutating `dst_port` to 65535 is a genuine mutation (the
facade value and the port bytes change), yet after recomputation the
serialization agrees with the unmutated serialization on the entire
transport checksum field — the ones-complement sum class of the checksum
input is unchanged (0 and 0xFFFF are congruent modulo 0xFFFF), so no header
byte outside the written port field differs. -/
theorem checksum_sensitivity_cex :
    (port0Pkt.setDstPortF 65535).dstPortF ≠ port0Pkt.dstPortF ∧
      ((port0Pkt.setDstPortF 65535).rawEff.1.drop (ckOff helloLay)).take 2 =
        ((port0Pkt.rawEff.1).drop (ckOff helloLay)).take 2 ∧
      (port0Pkt.setDstPortF 65535).rawEff.1 ≠ port0Pkt.rawEff.1 := by
  decide

/-- The common core of checksum sensitivity: if a well-formed mutation of a
consistent captured buffer changes the ones-complement sum class of the
transport checksum input, the recomputed transport checksum field differs
from the captured one. -/
theorem checksum_field_ne_of_class_ne {b mb : Buf} {L : Layout}
    (hwfm : WF mb L) (hL : parseLayout b = some L)
    (htcp : L.proto = TransProto.tcp) (hOk : checksumsOk b = true)
    (hcls : transSum L mb % 65535 ≠ transSum L b % 65535) :
    readBE16 (calc_checksums mb) (ckOff L) ≠ readBE16 b (ckOff L) := by
  have hLm : parseLayout mb = some L := parseLayout_of_wf hwfm
  have hckm : ckOff L + 1 < mb.length := ckOff_lt_len hwfm
  rw [calc_checksums_eq_some hLm]
  unfold recomputeWith
  rw [readBE16_writeCks hckm (transChecksum_le ..), checksumsOk_trans hL hOk,
    transChecksum_eq_tcp htcp, transChecksum_eq_tcp htcp]
  exact ocFold_ne_of_mod_ne hcls

/-- C3 (amended): for every well-formed captured TCP/IPv4 packet (checksum
fields consistent), mutating `dst_port` or `dst_addr` through the facade and
then serializing with checksums recomputed produces bytes that differ from
the unmutated serialization in the transport-layer checksum field — a
header field outside the address/port field that was written — provided the
mutation changes the ones-complement sum class (modulo 0xFFFF) of the
transport checksum input; without that proviso the claim fails (see the
counterexample: replacing port 0 by 65535 preserves the class and the
checksum field). -/
theorem checksum_sensitivity_amended (b : Buf) (p p1 : Packet)
    (h : parsePacket b = some p)
    (hmut : (∃ v, p1 = p.setDstPortF v) ∨
      (∃ s, p.setDstAddrStr s = some p1))
    (htcp : p.lay.proto = TransProto.tcp)
    (hOk : checksumsOk b = true)
    (hcls : transSum p.lay p1.buf % 65535 ≠ transSum p.lay b % 65535) :
    readBE16 p1.rawEff.1 (ckOff p.lay) ≠ readBE16 b (ckOff p.lay) := by
  obtain ⟨hL, hbuf, -, -⟩ := parsePacket_inv h
  have hwf := wf_of_parseLayout hL
  rcases hmut with ⟨v, rfl⟩ | ⟨s, hs⟩
  · have hwfm : WF (p.setDstPortF v).buf p.lay := by
      show WF (writeBE16 p.buf (p.lay.ihl4 + 2) v) p.lay
      rw [hbuf]
      exact wf_writePort hwf v
    have hraw : (p.setDstPortF v).rawEff.1 =
        calc_checksums (p.setDstPortF v).buf := rfl
    rw [hraw]
    exact checksum_field_ne_of_class_ne hwfm hL htcp hOk hcls
  · unfold Packet.setDstAddrStr at hs
    cases hA : inetAton s with
    | none =>
      rw [hA] at hs
      simp at hs
    | some q =>
      rw [hA, Option.map_some'] at hs
      cases hs
      have hwfm : WF ((((p.buf.set 16 q.1).set 17 q.2.1).set 18
          q.2.2.1).set 19 q.2.2.2) p.lay := by
        rw [hbuf]
        exact wf_writeAddr hwf _ _ _ _
      exact checksum_field_ne_of_class_ne hwfm hL htcp hOk hcls

/-- Witness for the amended C3: on the concrete captured packet, both test
mutations — `dst_port = 80` and `dst_addr = "10.10.10.10"` — change the
checksum-input class, so the transport checksum field of the recomputed
serialization differs in each case. -/
theorem checksum_sensitivity_amended_witness :
    (readBE16 (helloPkt.setDstPortF 80).rawEff.1 (ckOff helloPkt.lay) ≠
        readBE16 helloRaw (ckOff helloPkt.lay)) ∧
      ∃ p1, helloPkt.setDstAddrStr "10.10.10.10" = some p1 ∧
        readBE16 p1.rawEff.1 (ckOff helloPkt.lay) ≠
          readBE16 helloRaw (ckOff helloPkt.lay) :=
  ⟨checksum_sensitivity_amended helloRaw helloPkt (helloPkt.setDstPortF 80)
      (by decide) (Or.inl ⟨80, rfl⟩) (by decide) (by decide) (by decide),
    ⟨⟨(((helloRaw.set 16 10).set 17 10).set 18 10).set 19 10, helloLay, true,
        none⟩,
      by decide,
      checksum_sensitivity_amended helloRaw helloPkt
        ⟨(((helloRaw.set 16 10).set 17 10).set 18 10).set 19 10, helloLay,
          true, none⟩
        (by decide) (Or.inr ⟨"10.10.10.10", by decide⟩) (by decide)
        (by decide) (by decide)⟩⟩

end PyDivert
